import Mathlib

/-!
Shallow embedding of the book persistence and recommendation core of
recomemento-api-go: the `Book` entity (src/models/book.go), the repository
operations of `bookRepository` over a GORM/SQLite store, the sparse update
map built by `BookHandler.UpdateBook` (src/handlers/book_handler.go), and
`SeedDatabase` (src/database/database.go).

The relational store is modelled as the list of rows of the `books` table
together with the autoincrement primary-key counter. GORM semantics used:
`First` selects with `ORDER BY books.id LIMIT 1`; `ErrRecordNotFound` is
returned when no row qualifies; `Updates` with an empty map executes no SQL
and returns a nil error; SQLite compares TEXT with `=` using the default
BINARY collation, i.e. exact case-sensitive equality.
-/

namespace Recomemento

/-- `models.Book` (src/models/book.go:6-13): surrogate integer primary key
plus five string columns. -/
structure Book where
  id : Nat
  title : String
  author : String
  genre : String
  purpose : String
  description : String
deriving Repr, DecidableEq

/-- The typed errors a repository call surfaces: `gorm.ErrRecordNotFound`
and any other storage failure. -/
inductive RepoError where
  | notFound
  | storage
deriving Repr, DecidableEq

/-- The `books` table: its rows and the autoincrement primary-key counter
the store uses for the next insert. -/
structure Store where
  rows : List Book
  nextId : Nat
deriving Repr, DecidableEq

/-- The invariants SQLite maintains for `books`: every stored primary key is
below the autoincrement counter, and primary keys are pairwise distinct. -/
def Store.WF (s : Store) : Prop :=
  (∀ b ∈ s.rows, b.id < s.nextId) ∧
    s.rows.Pairwise (fun a c => a.id ≠ c.id)

/-- `bookRepository.Create` (src/models/book.go:40-42): `r.db.Create(book)`
lets the store assign the autoincrement primary key and inserts the row;
the passed entity comes back with the assigned id. -/
def Store.create (s : Store) (b : Book) : Book × Store :=
  let b' := { b with id := s.nextId }
  (b', { rows := s.rows ++ [b'], nextId := s.nextId + 1 })

/-- `bookRepository.GetAll` (src/models/book.go:44-48): `r.db.Find(&books)`
returns every row; an empty table yields an empty slice with a nil error. -/
def Store.getAll (s : Store) : Except RepoError (List Book) :=
  Except.ok s.rows

/-- `bookRepository.GetByID` (src/models/book.go:50-57):
`r.db.First(&book, id)` selects the row whose primary key equals `id`
(`ORDER BY books.id LIMIT 1`), failing with `ErrRecordNotFound` if absent. -/
def Store.getByID (s : Store) (i : Nat) : Except RepoError Book :=
  match s.rows.find? (fun b => b.id == i) with
  | some b => Except.ok b
  | none => Except.error RepoError.notFound

/-- The sparse `map[string]interface\x7b\x7d` built by
`BookHandler.UpdateBook` (src/handlers/book_handler.go:185-200): one
optional entry per mutable column, a `none` meaning the key is absent from
the map. The handler never puts the primary key in the map. -/
structure PartialFields where
  title : Option String
  author : Option String
  genre : Option String
  purpose : Option String
  description : Option String
deriving Repr, DecidableEq

/-- GORM `Updates` applied to one row: each key present in the map sets the
corresponding column, absent keys leave the column untouched. -/
def applyUpdates (b : Book) (u : PartialFields) : Book :=
  { b with
    title := u.title.getD b.title
    author := u.author.getD b.author
    genre := u.genre.getD b.genre
    purpose := u.purpose.getD b.purpose
    description := u.description.getD b.description }

/-- The empty update map (no keys present). -/
def PartialFields.empty : PartialFields :=
  ⟨none, none, none, none, none⟩

/-- `bookRepository.Update` (src/models/book.go:59-72): `First` by primary
key (`ErrRecordNotFound` if absent), then `r.db.Model(&book).Updates(updates)`
applies the present keys to that row and to the in-memory entity, which is
returned. The second component is the table after the call. -/
def Store.update (s : Store) (i : Nat) (u : PartialFields) :
    Except RepoError Book × Store :=
  match s.rows.find? (fun b => b.id == i) with
  | none => (Except.error RepoError.notFound, s)
  | some b =>
    let b' := applyUpdates b u
    (Except.ok b',
      { s with rows := s.rows.map (fun r => if r.id == i then b' else r) })

/-- `bookRepository.Delete` (src/models/book.go:74-87): `First` by primary
key (`ErrRecordNotFound` if absent), then `r.db.Delete(&book)` removes the
rows whose primary key equals `book.ID`; the pre-deletion entity is
returned. The second component is the table after the call. -/
def Store.delete (s : Store) (i : Nat) : Except RepoError Book × Store :=
  match s.rows.find? (fun b => b.id == i) with
  | none => (Except.error RepoError.notFound, s)
  | some b =>
    (Except.ok b, { s with rows := s.rows.filter (fun r => r.id != i) })

/-- The row `SELECT ... ORDER BY books.id LIMIT 1` yields from a set of
qualifying rows: the one with the least primary key. -/
def minById : List Book → Option Book
  | [] => none
  | b :: l =>
    match minById l with
    | none => some b
    | some c => if b.id ≤ c.id then some b else some c

/-- `bookRepository.FindByGenreAndPurpose` (src/models/book.go:89-96):
`r.db.Where("genre = ? AND purpose = ?", genre, purpose).First(&book)` —
SQLite `=` on TEXT is exact and case-sensitive, and GORM `First` appends
`ORDER BY books.id LIMIT 1`, so the qualifying row with the least primary
key is returned; `ErrRecordNotFound` when none qualifies. -/
def Store.findByGenreAndPurpose (s : Store) (genre purpose : String) :
    Except RepoError Book :=
  match minById
      (s.rows.filter (fun b => b.genre == genre && b.purpose == purpose)) with
  | some b => Except.ok b
  | none => Except.error RepoError.notFound

/-- The fixed baseline rows of `SeedDatabase`
(src/database/database.go:43-72); ids are store-assigned on insert. -/
def seedBooks : List Book :=
  [ { id := 0
      title := "The Great Gatsby"
      author := "F. Scott Fitzgerald"
      genre := "Fiction"
      purpose := "Entertainment"
      description := "A story of the fabulously wealthy Jay Gatsby and his love for the beautiful Daisy Buchanan." },
    { id := 0
      title := "Clean Code"
      author := "Robert C. Martin"
      genre := "Technology"
      purpose := "Learning"
      description := "A handbook of agile software craftsmanship that teaches principles of writing clean, readable code." },
    { id := 0
      title := "1984"
      author := "George Orwell"
      genre := "Fiction"
      purpose := "Entertainment"
      description := "A dystopian social science fiction novel that follows Winston Smith, a low-ranking citizen of Oceania." },
    { id := 0
      title := "The Lean Startup"
      author := "Eric Ries"
      genre := "Business"
      purpose := "Learning"
      description := "A methodology for developing businesses and products that aims to shorten product development cycles." } ]

/-- `SeedDatabase` (src/database/database.go:33-82): count the rows of
`books`; if any exist, skip seeding; otherwise insert the baseline books one
by one through `db.Create`, each insert assigning the next id. -/
def seedDatabase (s : Store) : Store :=
  if s.rows.length > 0 then s
  else seedBooks.foldl (fun st b => (st.create b).2) s

/-! Helper lemmas about `minById`, `find?` on primary keys, and row maps. -/

theorem minById_eq_none : ∀ {l : List Book}, minById l = none ↔ l = [] := by
  intro l
  cases l with
  | nil => simp [minById]
  | cons a l =>
    simp only [minById]
    cases h : minById l with
    | none => simp
    | some c =>
      constructor
      · intro h'; dsimp only at h'; split at h' <;> simp_all
      · intro h'; simp at h'

theorem minById_mem : ∀ {l : List Book} {b : Book}, minById l = some b → b ∈ l := by
  intro l
  induction l with
  | nil => intro b h; simp [minById] at h
  | cons a l ih =>
    intro b h
    simp only [minById] at h
    cases hm : minById l with
    | none => rw [hm] at h; simp at h; simp [h]
    | some c =>
      rw [hm] at h; dsimp only at h
      by_cases hle : a.id ≤ c.id
      · rw [if_pos hle] at h; simp at h; simp [h]
      · rw [if_neg hle] at h; simp at h; subst h
        exact List.mem_cons_of_mem a (ih hm)

theorem minById_le : ∀ {l : List Book} {b : Book}, minById l = some b →
    ∀ r ∈ l, b.id ≤ r.id := by
  intro l
  induction l with
  | nil => intro b h; simp [minById] at h
  | cons a l ih =>
    intro b h r hr
    simp only [minById] at h
    cases hm : minById l with
    | none =>
      rw [hm] at h; simp at h; subst h
      rcases List.mem_cons.mp hr with h1 | h1
      · subst h1; exact Nat.le_refl _
      · rw [minById_eq_none.mp hm] at h1; simp at h1
    | some c =>
      rw [hm] at h; dsimp only at h
      rcases List.mem_cons.mp hr with h1 | h1
      · subst h1
        by_cases hle : r.id ≤ c.id
        · rw [if_pos hle] at h; simp at h; subst h; exact Nat.le_refl _
        · rw [if_neg hle] at h; simp at h; subst h; omega
      · have hc := ih hm r h1
        by_cases hle : a.id ≤ c.id
        · rw [if_pos hle] at h; simp at h; subst h; omega
        · rw [if_neg hle] at h; simp at h; subst h; exact hc

theorem find?_id_unique : ∀ {l : List Book} {i : Nat} {b : Book},
    l.Pairwise (fun a c => a.id ≠ c.id) →
    l.find? (fun r => r.id == i) = some b →
    ∀ r ∈ l, r.id = i → r = b := by
  intro l
  induction l with
  | nil => intro i b _ hfind; simp at hfind
  | cons a l ih =>
    intro i b huniq hfind r hr hri
    have htail : l.Pairwise (fun a c => a.id ≠ c.id) := (List.pairwise_cons.mp huniq).2
    have hhead : ∀ x ∈ l, a.id ≠ x.id := (List.pairwise_cons.mp huniq).1
    by_cases hab : a.id = i
    · rw [List.find?_cons_of_pos l (by simpa using hab)] at hfind
      simp at hfind
      rcases List.mem_cons.mp hr with h1 | h1
      · rw [h1, hfind]
      · exact absurd (hab.trans hri.symm) (hhead r h1)
    · rw [List.find?_cons_of_neg l (by simpa using hab)] at hfind
      rcases List.mem_cons.mp hr with h1 | h1
      · rw [h1] at hri; exact absurd hri hab
      · exact ih htail hfind r h1 hri

theorem map_fixId : ∀ {l : List Book} {i : Nat} {b : Book},
    (∀ r ∈ l, r.id = i → r = b) →
    l.map (fun r => if r.id == i then b else r) = l := by
  intro l
  induction l with
  | nil => intro i b _; rfl
  | cons a l ih =>
    intro i b h
    simp only [List.map_cons]
    rw [ih (fun r hr => h r (List.mem_cons_of_mem a hr))]
    by_cases hab : a.id = i
    · rw [if_pos (by simpa using hab), (h a (List.mem_cons_self a l) hab)]
    · rw [if_neg (by simpa using hab)]

theorem find?_id_append_last : ∀ {l : List Book} {i : Nat} (b : Book),
    (∀ r ∈ l, r.id ≠ i) → b.id = i →
    (l ++ [b]).find? (fun r => r.id == i) = some b := by
  intro l i b hne hb
  rw [List.find?_append]
  have h1 : l.find? (fun r => r.id == i) = none :=
    List.find?_eq_none.mpr (fun x hx => by simpa using hne x hx)
  rw [h1]
  simp [hb]

theorem find?_id_map_set : ∀ {l : List Book} {i : Nat} {b' : Book},
    b'.id = i → (∃ r ∈ l, r.id = i) →
    (l.map (fun r => if r.id == i then b' else r)).find? (fun r => r.id == i) =
      some b' := by
  intro l
  induction l with
  | nil => intro i b' _ hex; simp at hex
  | cons a l ih =>
    intro i b' hb' hex
    simp only [List.map_cons]
    by_cases hab : a.id = i
    · rw [if_pos (by simpa using hab)]
      exact List.find?_cons_of_pos _ (by simpa using hb')
    · rw [if_neg (by simpa using hab)]
      rw [List.find?_cons_of_neg _ (by simpa using hab)]
      rcases hex with ⟨r, hr, hri⟩
      rcases List.mem_cons.mp hr with h1 | h1
      · exact absurd (h1 ▸ hri) hab
      · exact ih hb' ⟨r, h1, hri⟩

/-! Concrete rows and stores used to instantiate the theorems. -/

/-- A concrete stored row with id 1. -/
def sampleBook : Book :=
  { id := 1, title := "The Great Gatsby", author := "F. Scott Fitzgerald",
    genre := "Fiction", purpose := "Entertainment", description := "classic" }

/-- A concrete stored row with id 2. -/
def sampleBook2 : Book :=
  { id := 2, title := "Clean Code", author := "Robert C. Martin",
    genre := "Technology", purpose := "Learning", description := "handbook" }

/-- A concrete stored row with id 3, matching `sampleBook` on genre and
purpose. -/
def sampleBook3 : Book :=
  { id := 3, title := "1984", author := "George Orwell",
    genre := "Fiction", purpose := "Entertainment", description := "dystopia" }

/-- A concrete table holding the three sample rows, next id 4. -/
def sampleStore : Store :=
  { rows := [sampleBook, sampleBook2, sampleBook3], nextId := 4 }

/-- Claim C1: for a stored row with id `i`, an update whose partial map
contains only the key `title` with value `X` returns the row with its title
set to `X` and its author, genre, purpose, description and id unchanged,
and the table afterwards holds exactly that row under id `i`; in general,
any field whose key is absent from the partial map is left unchanged by
`Update`, and the id is never touched. -/
theorem update_title_only_frame (s : Store) (i : Nat) (b : Book) (X : String)
    (hfind : s.rows.find? (fun r => r.id == i) = some b) :
    ((s.update i ⟨some X, none, none, none, none⟩).1 =
        Except.ok { b with title := X } ∧
      ((s.update i ⟨some X, none, none, none, none⟩).2).getByID i =
        Except.ok { b with title := X }) ∧
    (∀ u : PartialFields, ∀ b' : Book,
      (s.update i u).1 = Except.ok b' →
        b'.id = b.id ∧
        (u.title = none → b'.title = b.title) ∧
        (u.author = none → b'.author = b.author) ∧
        (u.genre = none → b'.genre = b.genre) ∧
        (u.purpose = none → b'.purpose = b.purpose) ∧
        (u.description = none → b'.description = b.description)) := by
  have hbi : b.id = i := by
    have := List.find?_some hfind; simpa using this
  have hbm : b ∈ s.rows := List.mem_of_find?_eq_some hfind
  have happly : applyUpdates b ⟨some X, none, none, none, none⟩ =
      { b with title := X } := by
    simp [applyUpdates]
  refine ⟨⟨?_, ?_⟩, ?_⟩
  · simp only [Store.update]
    rw [hfind]
    simp [happly]
  · simp only [Store.update]
    rw [hfind]
    simp only [Store.getByID, happly]
    rw [find?_id_map_set (by simpa using hbi) ⟨b, hbm, hbi⟩]
  · intro u b' h
    simp only [Store.update] at h
    rw [hfind] at h
    simp only [Except.ok.injEq] at h
    subst h
    refine ⟨rfl, ?_, ?_, ?_, ?_, ?_⟩ <;> intro hn <;> simp [applyUpdates, hn]

/-- Witness for C1 at the concrete store: updating row 1 with only a title. -/
theorem update_title_only_frame_witness :
    (sampleStore.rows.find? (fun r => r.id == 1) = some sampleBook) ∧
    (((sampleStore.update 1 ⟨some "X", none, none, none, none⟩).1 =
        Except.ok { sampleBook with title := "X" } ∧
      ((sampleStore.update 1 ⟨some "X", none, none, none, none⟩).2).getByID 1 =
        Except.ok { sampleBook with title := "X" }) ∧
    (∀ u : PartialFields, ∀ b' : Book,
      (sampleStore.update 1 u).1 = Except.ok b' →
        b'.id = sampleBook.id ∧
        (u.title = none → b'.title = sampleBook.title) ∧
        (u.author = none → b'.author = sampleBook.author) ∧
        (u.genre = none → b'.genre = sampleBook.genre) ∧
        (u.purpose = none → b'.purpose = sampleBook.purpose) ∧
        (u.description = none → b'.description = sampleBook.description))) :=
  ⟨rfl, update_title_only_frame sampleStore 1 sampleBook "X" rfl⟩

/-- Claim C2: `FindByGenreAndPurpose` returns a row whose genre and purpose
equal the arguments under exact case-sensitive string equality whenever at
least one such row exists, fails with `NotFoundError` when none does, and
in particular the query `("fiction", "entertainment")` does not match a row
stored with genre `"Fiction"` and purpose `"Entertainment"`. -/
theorem findByGenreAndPurpose_exact_match (s : Store) (g p : String) :
    ((∃ b ∈ s.rows, b.genre = g ∧ b.purpose = p) →
      ∃ b, s.findByGenreAndPurpose g p = Except.ok b ∧
        b ∈ s.rows ∧ b.genre = g ∧ b.purpose = p) ∧
    ((∀ b ∈ s.rows, ¬(b.genre = g ∧ b.purpose = p)) →
      s.findByGenreAndPurpose g p = Except.error RepoError.notFound) ∧
    Store.findByGenreAndPurpose { rows := [sampleBook], nextId := 2 }
        "fiction" "entertainment" = Except.error RepoError.notFound := by
  refine ⟨?_, ?_, by rfl⟩
  · rintro ⟨b, hb, hg, hp⟩
    have hbf : b ∈ s.rows.filter (fun r => r.genre == g && r.purpose == p) :=
      List.mem_filter.mpr ⟨hb, by simp [hg, hp]⟩
    have hne : s.rows.filter (fun r => r.genre == g && r.purpose == p) ≠ [] :=
      fun h => by rw [h] at hbf; simp at hbf
    cases hm : minById (s.rows.filter (fun r => r.genre == g && r.purpose == p)) with
    | none => exact absurd (minById_eq_none.mp hm) hne
    | some c =>
      refine ⟨c, ?_, ?_⟩
      · simp only [Store.findByGenreAndPurpose]
        rw [hm]
      · have hcf := minById_mem hm
        have hmf := List.mem_filter.mp hcf
        have hgp : c.genre = g ∧ c.purpose = p := by
          have h2 := hmf.2; simp at h2; exact h2
        exact ⟨hmf.1, hgp.1, hgp.2⟩
  · intro hnone
    have hfil : s.rows.filter (fun r => r.genre == g && r.purpose == p) = [] :=
      List.filter_eq_nil_iff.mpr (fun b hb => by
        have := hnone b hb
        simp only [Bool.and_eq_true, beq_iff_eq]
        intro hcontra
        exact this ⟨hcontra.1, hcontra.2⟩)
    simp only [Store.findByGenreAndPurpose, hfil]
    rfl

/-- Witness for C2: the sample store holds a Fiction/Entertainment row and
the lookup succeeds on it. -/
theorem findByGenreAndPurpose_exact_match_witness :
    (∃ b ∈ sampleStore.rows, b.genre = "Fiction" ∧ b.purpose = "Entertainment") ∧
    (∃ b, sampleStore.findByGenreAndPurpose "Fiction" "Entertainment" =
        Except.ok b ∧
      b ∈ sampleStore.rows ∧ b.genre = "Fiction" ∧ b.purpose = "Entertainment") :=
  have hex : ∃ b ∈ sampleStore.rows,
      b.genre = "Fiction" ∧ b.purpose = "Entertainment" :=
    ⟨sampleBook, by simp [sampleStore], rfl, rfl⟩
  ⟨hex, (findByGenreAndPurpose_exact_match sampleStore "Fiction"
      "Entertainment").1 hex⟩

/-- Claim C3: after `Create(b)` succeeds with assigned id, `GetByID` on that
id returns a row agreeing with `b` on title, author, genre, purpose and
description, differing at most in the assigned id. -/
theorem create_then_getByID (s : Store) (b : Book)
    (hfresh : ∀ r ∈ s.rows, r.id < s.nextId) :
    ((s.create b).2).getByID ((s.create b).1).id = Except.ok ((s.create b).1) ∧
    ((s.create b).1).title = b.title ∧
    ((s.create b).1).author = b.author ∧
    ((s.create b).1).genre = b.genre ∧
    ((s.create b).1).purpose = b.purpose ∧
    ((s.create b).1).description = b.description := by
  refine ⟨?_, rfl, rfl, rfl, rfl, rfl⟩
  simp only [Store.create, Store.getByID]
  rw [find?_id_append_last { b with id := s.nextId }
    (fun r hr => Nat.ne_of_lt (hfresh r hr)) rfl]

/-- Witness for C3: creating a fourth row in the sample store and reading
it back by its assigned id. -/
theorem create_then_getByID_witness :
    (∀ r ∈ sampleStore.rows, r.id < sampleStore.nextId) ∧
    (((sampleStore.create sampleBook).2).getByID
        ((sampleStore.create sampleBook).1).id =
      Except.ok ((sampleStore.create sampleBook).1) ∧
    ((sampleStore.create sampleBook).1).title = sampleBook.title ∧
    ((sampleStore.create sampleBook).1).author = sampleBook.author ∧
    ((sampleStore.create sampleBook).1).genre = sampleBook.genre ∧
    ((sampleStore.create sampleBook).1).purpose = sampleBook.purpose ∧
    ((sampleStore.create sampleBook).1).description = sampleBook.description) :=
  ⟨by decide, create_then_getByID sampleStore sampleBook (by decide)⟩

/-- Claim C4: for an id held by no row, `GetByID`, `Update` and `Delete`
each fail with `NotFoundError`, and the failing `Update` and `Delete`
return the store unchanged. -/
theorem absent_id_ops (s : Store) (i : Nat) (u : PartialFields)
    (habs : ∀ r ∈ s.rows, r.id ≠ i) :
    s.getByID i = Except.error RepoError.notFound ∧
    s.update i u = (Except.error RepoError.notFound, s) ∧
    s.delete i = (Except.error RepoError.notFound, s) := by
  have hnone : s.rows.find? (fun r => r.id == i) = none :=
    List.find?_eq_none.mpr (fun x hx => by simpa using habs x hx)
  exact ⟨by simp [Store.getByID, hnone], by simp [Store.update, hnone],
    by simp [Store.delete, hnone]⟩

/-- Witness for C4: id 99 is absent from the sample store. -/
theorem absent_id_ops_witness :
    (∀ r ∈ sampleStore.rows, r.id ≠ 99) ∧
    (sampleStore.getByID 99 = Except.error RepoError.notFound ∧
    sampleStore.update 99 PartialFields.empty =
      (Except.error RepoError.notFound, sampleStore) ∧
    sampleStore.delete 99 = (Except.error RepoError.notFound, sampleStore)) :=
  ⟨by decide, absent_id_ops sampleStore 99 PartialFields.empty (by decide)⟩

theorem filter_ne_id_length : ∀ {l : List Book} {i : Nat} {b : Book},
    l.Pairwise (fun a c => a.id ≠ c.id) →
    l.find? (fun r => r.id == i) = some b →
    (l.filter (fun r => r.id != i)).length + 1 = l.length := by
  intro l
  induction l with
  | nil => intro i b _ hfind; simp at hfind
  | cons a l ih =>
    intro i b huniq hfind
    have htail : l.Pairwise (fun a c => a.id ≠ c.id) := (List.pairwise_cons.mp huniq).2
    have hhead : ∀ x ∈ l, a.id ≠ x.id := (List.pairwise_cons.mp huniq).1
    by_cases hab : a.id = i
    · have hkeep : l.filter (fun r => r.id != i) = l :=
        List.filter_eq_self.mpr (fun x hx => by
          simpa using fun hxi => hhead x hx (hab.trans hxi.symm))
      simp only [List.filter_cons]
      rw [if_neg (by simp [hab]), hkeep, List.length_cons]
    · rw [List.find?_cons_of_neg l (by simpa using hab)] at hfind
      simp only [List.filter_cons]
      rw [if_pos (by simpa using hab), List.length_cons, List.length_cons,
        ← ih htail hfind]

/-- Claim C5: deleting a stored row with id `i` returns the entity exactly
as it existed before the deletion, and afterwards `GetByID(i)` fails with
`NotFoundError` while `GetAll` is shorter by exactly one element. -/
theorem delete_removes_row (s : Store) (i : Nat) (b : Book)
    (huniq : s.rows.Pairwise (fun a c => a.id ≠ c.id))
    (hfind : s.rows.find? (fun r => r.id == i) = some b) :
    (s.delete i).1 = Except.ok b ∧
    ((s.delete i).2).getByID i = Except.error RepoError.notFound ∧
    ((s.delete i).2).rows.length + 1 = s.rows.length := by
  refine ⟨?_, ?_, ?_⟩
  · simp only [Store.delete]; rw [hfind]
  · simp only [Store.delete]; rw [hfind]
    simp only [Store.getByID]
    have hnone : (s.rows.filter (fun r => r.id != i)).find?
        (fun r => r.id == i) = none :=
      List.find?_eq_none.mpr (fun x hx => by
        have := (List.mem_filter.mp hx).2; simp at this ⊢; exact this)
    rw [hnone]
  · simp only [Store.delete]; rw [hfind]
    exact filter_ne_id_length huniq hfind

/-- Witness for C5: deleting row 2 from the sample store. -/
theorem delete_removes_row_witness :
    (sampleStore.rows.Pairwise (fun a c => a.id ≠ c.id)) ∧
    ((sampleStore.delete 2).1 = Except.ok sampleBook2 ∧
    ((sampleStore.delete 2).2).getByID 2 = Except.error RepoError.notFound ∧
    ((sampleStore.delete 2).2).rows.length + 1 = sampleStore.rows.length) :=
  ⟨by decide, delete_removes_row sampleStore 2 sampleBook2 (by decide) rfl⟩

/-- Claim C6: updating a stored row with an empty partial-fields map
succeeds, returns the entity unchanged, and leaves the table unchanged. -/
theorem update_empty_noop (s : Store) (i : Nat) (b : Book)
    (huniq : s.rows.Pairwise (fun a c => a.id ≠ c.id))
    (hfind : s.rows.find? (fun r => r.id == i) = some b) :
    s.update i PartialFields.empty = (Except.ok b, s) := by
  have happly : applyUpdates b PartialFields.empty = b := rfl
  simp only [Store.update]
  rw [hfind]
  simp only [happly]
  rw [map_fixId (find?_id_unique huniq hfind)]

/-- Witness for C6: an empty update of row 1 in the sample store. -/
theorem update_empty_noop_witness :
    (sampleStore.rows.Pairwise (fun a c => a.id ≠ c.id)) ∧
    sampleStore.update 1 PartialFields.empty = (Except.ok sampleBook, sampleStore) :=
  ⟨by decide, update_empty_noop sampleStore 1 sampleBook (by decide) rfl⟩

/-- Claim C7: ids are immutable once assigned — `Update` preserves the list
of stored ids (and a successful `Update` returns an entity whose id is the
requested one), `Create` only appends a fresh id, and `Delete` only removes
ids; the read-only operations take no store forward. -/
theorem id_immutable (s : Store) (i : Nat) (u : PartialFields) (b : Book) :
    ((s.update i u).2).rows.map Book.id = s.rows.map Book.id ∧
    ((s.create b).2).rows.map Book.id = s.rows.map Book.id ++ [s.nextId] ∧
    List.Sublist (((s.delete i).2).rows.map Book.id) (s.rows.map Book.id) ∧
    (∀ b' : Book, (s.update i u).1 = Except.ok b' → b'.id = i) := by
  refine ⟨?_, ?_, ?_, ?_⟩
  · cases hfind : s.rows.find? (fun r => r.id == i) with
    | none => simp only [Store.update]; rw [hfind]
    | some c =>
      have hci : c.id = i := by have := List.find?_some hfind; simpa using this
      simp only [Store.update]
      rw [hfind]
      simp only [List.map_map]
      refine List.map_congr_left (fun r hr => ?_)
      by_cases hri : r.id = i
      · simp only [Function.comp_apply]
        rw [if_pos (by simpa using hri)]
        show (applyUpdates c u).id = r.id
        simp [applyUpdates, hci, hri]
      · simp only [Function.comp_apply]
        rw [if_neg (by simpa using hri)]
  · simp [Store.create]
  · cases hfind : s.rows.find? (fun r => r.id == i) with
    | none => simp only [Store.delete]; rw [hfind]
    | some c =>
      simp only [Store.delete]; rw [hfind]
      exact List.Sublist.map Book.id (List.filter_sublist s.rows)
  · intro b' h
    cases hfind : s.rows.find? (fun r => r.id == i) with
    | none => simp only [Store.update] at h; rw [hfind] at h; simp at h
    | some c =>
      have hci : c.id = i := by have := List.find?_some hfind; simpa using this
      simp only [Store.update] at h
      rw [hfind] at h
      simp only [Except.ok.injEq] at h
      subst h
      simpa [applyUpdates] using hci

/-- Witness for C7: a title-only update of row 1 of the sample store keeps
all stored ids and returns an entity with id 1. -/
theorem id_immutable_witness :
    ((sampleStore.update 1 ⟨some "X", none, none, none, none⟩).2).rows.map Book.id =
      sampleStore.rows.map Book.id ∧
    ((sampleStore.create sampleBook).2).rows.map Book.id =
      sampleStore.rows.map Book.id ++ [sampleStore.nextId] ∧
    List.Sublist (((sampleStore.delete 1).2).rows.map Book.id)
      (sampleStore.rows.map Book.id) ∧
    ({ sampleBook with title := "X" } : Book).id = 1 :=
  have h := id_immutable sampleStore 1 ⟨some "X", none, none, none, none⟩ sampleBook
  ⟨h.1, h.2.1, h.2.2.1, h.2.2.2 { sampleBook with title := "X" } rfl⟩

theorem seedDatabase_ne_nil {s : Store} (h : s.rows ≠ []) : seedDatabase s = s := by
  unfold seedDatabase
  rw [if_pos (List.length_pos.mpr h)]

/-- Claim C8: `SeedDatabase` inserts the fixed baseline rows exactly when
the table is empty, is a no-op whenever at least one row exists, and
running it twice leaves the same state as running it once. -/
theorem seed_once_when_empty (s : Store) :
    (s.rows ≠ [] → seedDatabase s = s) ∧
    (s.rows = [] →
      ((seedDatabase s).rows.map
          (fun b => (b.title, b.author, b.genre, b.purpose, b.description)) =
        seedBooks.map
          (fun b => (b.title, b.author, b.genre, b.purpose, b.description)) ∧
       (seedDatabase s).rows.map Book.id =
        [s.nextId, s.nextId + 1, s.nextId + 2, s.nextId + 3])) ∧
    seedDatabase (seedDatabase s) = seedDatabase s := by
  refine ⟨fun h => seedDatabase_ne_nil h, ?_, ?_⟩
  · intro h
    obtain ⟨rows, n⟩ := s
    simp only at h
    subst h
    constructor
    · simp [seedDatabase, seedBooks, Store.create]
    · simp [seedDatabase, seedBooks, Store.create]
  · by_cases h : s.rows = []
    · apply seedDatabase_ne_nil
      obtain ⟨rows, n⟩ := s
      simp only at h
      subst h
      simp [seedDatabase, seedBooks, Store.create]
    · rw [seedDatabase_ne_nil h]
      exact seedDatabase_ne_nil h

/-- Witness for C8: seeding the empty store with counter 1 inserts the four
baseline rows with ids 1 to 4, and reseeding the already-seeded store is a
no-op. -/
theorem seed_once_when_empty_witness :
    ((⟨[], 1⟩ : Store).rows = []) ∧
    ((seedDatabase ⟨[], 1⟩).rows.map
        (fun b => (b.title, b.author, b.genre, b.purpose, b.description)) =
      seedBooks.map
        (fun b => (b.title, b.author, b.genre, b.purpose, b.description)) ∧
     (seedDatabase ⟨[], 1⟩).rows.map Book.id = [1, 1 + 1, 1 + 2, 1 + 3]) ∧
    seedDatabase (seedDatabase ⟨[], 1⟩) = seedDatabase ⟨[], 1⟩ :=
  ⟨rfl, (seed_once_when_empty ⟨[], 1⟩).2.1 rfl,
    (seed_once_when_empty ⟨[], 1⟩).2.2⟩

/-- Claim C9: `GetAll` succeeds and returns one element per stored row, and
on an empty store it returns the empty sequence rather than an error. -/
theorem getAll_returns_all (s : Store) :
    (∃ l, s.getAll = Except.ok l ∧ l.length = s.rows.length ∧
      ∀ b : Book, b ∈ l ↔ b ∈ s.rows) ∧
    (s.rows = [] → s.getAll = Except.ok []) := by
  refine ⟨⟨s.rows, rfl, rfl, fun b => Iff.rfl⟩, fun h => by simp [Store.getAll, h]⟩

/-- Witness for C9: the empty store. -/
theorem getAll_returns_all_witness :
    ((⟨[], 1⟩ : Store).rows = []) ∧
    ((⟨[], 1⟩ : Store).getAll = Except.ok ([] : List Book)) :=
  ⟨rfl, (getAll_returns_all ⟨[], 1⟩).2 rfl⟩

/-- Claim C10: with two or more qualifying rows, `FindByGenreAndPurpose`
returns the qualifying row with the smallest id — GORM `First` selects with
`ORDER BY books.id LIMIT 1` — so the result is determined by the state. -/
theorem findByGenreAndPurpose_min_id (s : Store) (g p : String)
    (hmulti : 2 ≤ (s.rows.filter (fun r => r.genre == g && r.purpose == p)).length) :
    ∃ b, s.findByGenreAndPurpose g p = Except.ok b ∧
      b ∈ s.rows ∧ b.genre = g ∧ b.purpose = p ∧
      ∀ r ∈ s.rows, r.genre = g → r.purpose = p → b.id ≤ r.id := by
  have hne : s.rows.filter (fun r => r.genre == g && r.purpose == p) ≠ [] := by
    intro h; rw [h] at hmulti; simp at hmulti
  cases hm : minById (s.rows.filter (fun r => r.genre == g && r.purpose == p)) with
  | none => exact absurd (minById_eq_none.mp hm) hne
  | some c =>
    have hcf := minById_mem hm
    have hmf := List.mem_filter.mp hcf
    have hgp : c.genre = g ∧ c.purpose = p := by
      have h2 := hmf.2; simp at h2; exact h2
    refine ⟨c, ?_, hmf.1, hgp.1, hgp.2, ?_⟩
    · simp only [Store.findByGenreAndPurpose]; rw [hm]
    · intro r hr hrg hrp
      exact minById_le hm r (List.mem_filter.mpr ⟨hr, by simp [hrg, hrp]⟩)

/-- Witness for C10: the sample store holds two Fiction/Entertainment rows
(ids 1 and 3) and the lookup picks the one with the smaller id. -/
theorem findByGenreAndPurpose_min_id_witness :
    (2 ≤ (sampleStore.rows.filter
      (fun r => r.genre == "Fiction" && r.purpose == "Entertainment")).length) ∧
    (∃ b, sampleStore.findByGenreAndPurpose "Fiction" "Entertainment" =
        Except.ok b ∧
      b ∈ sampleStore.rows ∧ b.genre = "Fiction" ∧ b.purpose = "Entertainment" ∧
      ∀ r ∈ sampleStore.rows, r.genre = "Fiction" → r.purpose = "Entertainment" →
        b.id ≤ r.id) :=
  ⟨by decide, findByGenreAndPurpose_min_id sampleStore "Fiction" "Entertainment"
    (by decide)⟩

end Recomemento
